import Mathlib

/-!
Shallow embedding of the bardecoder QR core (src/src/qr/mod.rs and
src/src/decoder.rs) together with theorems settling the specification
claims about it.

Machine integers are modelled as Nat with explicit reduction modulo 2^32
where the Rust u32 arithmetic can wrap.  Fallible operations (Vec
indexing, the builder panics) are modelled with Option and Except.
-/

namespace Bardecoder

/-- The modulus of Rust u32 arithmetic. -/
def U32MOD : Nat := 2 ^ 32

/-- Embedding of `struct QRData` from src/src/qr/mod.rs: a module matrix
with a flat row-major byte array, a version and a side length. -/
structure QRData where
  data : List Nat
  version : Nat
  side : Nat
deriving Repr, DecidableEq

/-- Embedding of `QRData::new` (src/src/qr/mod.rs lines 21-29): stores
the arguments unchanged and computes `side = 4 * version + 17` in u32
arithmetic.  No validation of the array length is performed. -/
def QRData.new (data : List Nat) (version : Nat) : QRData :=
  { data := data
    version := version
    side := (4 * version + 17) % U32MOD }

/-- Embedding of `impl Index<[u32; 2]> for QRData` (src/src/qr/mod.rs
lines 31-42): reads the raw byte at row-major position
`y * side + x` and returns the canonical bit, 1 when the raw byte is 0
and 0 otherwise.  The out-of-bounds Vec panic is modelled as `none`. -/
def QRData.index (q : QRData) (x y : Nat) : Option Nat :=
  match q.data.get? (y * q.side + x) with
  | some pixel => some (if pixel = 0 then 1 else 0)
  | none => none

/-- A read through the Index operator paired with the matrix state after
the read.  The Rust method takes `&self` (a shared, read-only borrow),
so the matrix passes through unchanged. -/
def QRData.indexRead (q : QRData) (x y : Nat) : Option Nat × QRData :=
  (q.index x y, q)

/-- Embedding of `enum ECLevel` (src/src/qr/format.rs, referenced from
src/src/qr/mod.rs). -/
inductive ECLevel where
  | LOW
  | MEDIUM
  | QUARTILE
  | HIGH
deriving Repr, DecidableEq

/-- Embedding of `struct BlockInfo` (src/src/qr/mod.rs lines 59-65). -/
structure BlockInfo where
  block_count : Nat
  total_per : Nat
  data_per : Nat
  ec_cap : Nat
deriving Repr, DecidableEq

/-- Embedding of `BlockInfo::new` (src/src/qr/mod.rs lines 67-76). -/
def BlockInfo.new (block_count total_per data_per ec_cap : Nat) : BlockInfo :=
  { block_count := block_count
    total_per := total_per
    data_per := data_per
    ec_cap := ec_cap }

/-- Embedding of `block_info` (src/src/qr/mod.rs lines 78-83): the
static block table, populated only at (version 1, MEDIUM). -/
def block_info (version : Nat) (level : ECLevel) : Option (List BlockInfo) :=
  match version, level with
  | 1, ECLevel.MEDIUM => some [BlockInfo.new 1 26 16 4]
  | _, _ => none

/-- Embedding of `struct QRError` (src/src/qr/mod.rs lines 85-88). -/
structure QRError where
  msg : String
deriving Repr, DecidableEq

/-- Embedding of `struct Point` (the `point` module): a 2-D
floating-point coordinate used for finder-pattern centers. -/
structure Point where
  x : Float
  y : Float
deriving Repr

/-- Embedding of `struct QRLocation` (src/src/qr/mod.rs lines 44-51). -/
structure QRLocation where
  top_left : Point
  top_right : Point
  bottom_left : Point
  module_size : Float
  version : Nat
deriving Repr

/-- Embedding of `struct Decoder<S, G, T>` (src/src/decoder.rs lines
17-23): the five boxed stage trait objects are modelled as functions
with the signatures of the corresponding trait methods. -/
structure Decoder (S G T : Type) where
  grayscale : S → G
  threshold : G → T
  locate : T → List QRLocation
  extract : T → List QRLocation → List QRData
  decode : List QRData → List (Except QRError String)

/-- Embedding of the method `Decoder::decode` (src/src/decoder.rs lines
26-38): grayscale, then threshold, then locate; if no locations were
found return the empty list, otherwise extract from the thresholded
image and decode the extraction.  Named decodeImage because the Lean
structure field `decode` already carries the source name of the stage. -/
def Decoder.decodeImage {S G T : Type} (d : Decoder S G T) (source : S) :
    List (Except QRError String) :=
  let grayscale := d.grayscale source
  let threshold := d.threshold grayscale
  let locations := d.locate threshold
  if locations.length = 0 then
    []
  else
    let extraction := d.extract threshold locations
    d.decode extraction

/-- Embedding of `struct DecoderBuilder<S, G, T>` (src/src/decoder.rs
lines 64-70): each stage slot is optional. -/
structure DecoderBuilder (S G T : Type) where
  grayscale : Option (S → G)
  threshold : Option (G → T)
  locate : Option (T → List QRLocation)
  extract : Option (T → List QRLocation → List QRData)
  decode : Option (List QRData → List (Except QRError String))

/-- Embedding of `DecoderBuilder::new` (src/src/decoder.rs lines
74-82): all fields start as None. -/
def DecoderBuilder.new {S G T : Type} : DecoderBuilder S G T :=
  { grayscale := none
    threshold := none
    locate := none
    extract := none
    decode := none }

/-- Embedding of the setter `DecoderBuilder::grayscale`
(src/src/decoder.rs lines 85-88), in functional-update style. -/
def DecoderBuilder.withGrayscale {S G T : Type} (b : DecoderBuilder S G T)
    (g : S → G) : DecoderBuilder S G T :=
  { b with grayscale := some g }

/-- Embedding of the setter `DecoderBuilder::threshold`
(src/src/decoder.rs lines 91-94). -/
def DecoderBuilder.withThreshold {S G T : Type} (b : DecoderBuilder S G T)
    (t : G → T) : DecoderBuilder S G T :=
  { b with threshold := some t }

/-- Embedding of the setter `DecoderBuilder::locate`
(src/src/decoder.rs lines 96-99). -/
def DecoderBuilder.withLocate {S G T : Type} (b : DecoderBuilder S G T)
    (l : T → List QRLocation) : DecoderBuilder S G T :=
  { b with locate := some l }

/-- Embedding of the setter `DecoderBuilder::extract`
(src/src/decoder.rs lines 101-104). -/
def DecoderBuilder.withExtract {S G T : Type} (b : DecoderBuilder S G T)
    (e : T → List QRLocation → List QRData) : DecoderBuilder S G T :=
  { b with extract := some e }

/-- Embedding of the setter `DecoderBuilder::decode`
(src/src/decoder.rs lines 106-109). -/
def DecoderBuilder.withDecode {S G T : Type} (b : DecoderBuilder S G T)
    (d : List QRData → List (Except QRError String)) : DecoderBuilder S G T :=
  { b with decode := some d }

/-- Embedding of `DecoderBuilder::build` (src/src/decoder.rs lines
116-145): each missing component panics with its message; the panic is
modelled as `Except.error` carrying the panic message (the message for
the Decode component keeps the typo of the source). -/
def DecoderBuilder.build {S G T : Type} (b : DecoderBuilder S G T) :
    Except String (Decoder S G T) :=
  match b.grayscale with
  | none => Except.error "Cannot build Decoder without Grayscale component"
  | some g =>
    match b.threshold with
    | none => Except.error "Cannot build Decoder without Threshold component"
    | some t =>
      match b.locate with
      | none => Except.error "Cannot build Decoder without Locate component"
      | some l =>
        match b.extract with
        | none => Except.error "Cannot build Decoder without Extract component"
        | some e =>
          match b.decode with
          | none => Except.error "Cannot build Decoder without Decode componen"
          | some d =>
            Except.ok
              { grayscale := g
                threshold := t
                locate := l
                extract := e
                decode := d }

/-- Modelled from the spec: the `image` crate type `DynamicImage` is not
under src/; only its role as the source image type matters here.  It is
modelled as a grid of RGB triples. -/
structure DynamicImage where
  pixels : List (List (Nat × Nat × Nat))

/-- Modelled from the spec: the `image` crate type `GrayImage` is not
under src/; it is modelled as a grid of intensity samples. -/
structure GrayImage where
  pixels : List (List Nat)

/-- Modelled from the spec: `ToLuma` (algorithm::grayscale, not under
src/) is a deterministic function reducing a source image to a
single-channel intensity image; modelled as an average of the channels. -/
def ToLuma.to_grayscale (img : DynamicImage) : GrayImage :=
  { pixels := img.pixels.map (fun row =>
      row.map (fun p => (p.1 + p.2.1 + p.2.2) / 3)) }

/-- Modelled from the spec: `BlockedMean` (algorithm::threshold, not
under src/) is a deterministic binarization of an intensity grid into a
dark/light grid of the same dimensions, parameterized by a block width
and height; the claims settled here depend only on that contract, so
the local block mean is modelled as a fixed global cut. -/
def BlockedMean.to_threshold (_blockWidth _blockHeight : Nat)
    (g : GrayImage) : GrayImage :=
  { pixels := g.pixels.map (fun row =>
      row.map (fun p => if p < 128 then 0 else 255)) }

/-- Modelled from the spec: `LineScan` (algorithm::locate, not under
src/) scans a binarized image for finder patterns and returns zero or
more symbol placements; the claims settled here depend only on it being
a deterministic function into a placement list. -/
def LineScan.locate (_img : GrayImage) : List QRLocation :=
  []

/-- Modelled from the spec: `QRExtractor` (algorithm::extract, not
under src/) produces one module matrix per placement, in order. -/
def QRExtractor.extract (_img : GrayImage) (locs : List QRLocation) :
    List QRData :=
  locs.map (fun loc => QRData.new [] loc.version)

/-- Modelled from the spec: `QRDecoder` (algorithm::decode, not under
src/) produces one result per input matrix, in order. -/
def QRDecoder.decode (matrices : List QRData) :
    List (Except QRError String) :=
  matrices.map (fun m =>
    match block_info m.version ECLevel.MEDIUM with
    | some _ => Except.error { msg := "unreadable format information" }
    | none => Except.error { msg := "unsupported version/level" })

/-- Embedding of `default_builder` (src/src/decoder.rs lines 158-168):
binds all five default stage components. -/
def default_builder : DecoderBuilder DynamicImage GrayImage GrayImage :=
  ((((DecoderBuilder.new.withGrayscale
      ToLuma.to_grayscale).withThreshold
      (BlockedMean.to_threshold 5 7)).withLocate
      LineScan.locate).withExtract
      QRExtractor.extract).withDecode
      QRDecoder.decode

/-- Embedding of `default_decoder` (src/src/decoder.rs lines 51-53):
builds the default builder. -/
def default_decoder : Except String (Decoder DynamicImage GrayImage GrayImage) :=
  default_builder.build

/-- A decoder over trivial image types whose locate stage finds
nothing; used to exercise the short-circuit path of the pipeline. -/
def trivialDecoder : Decoder Unit Unit Unit :=
  { grayscale := id
    threshold := id
    locate := fun _ => []
    extract := fun _ _ => []
    decode := fun _ => [] }

/-- A concrete placement value used to exercise the non-empty path of
the pipeline. -/
def oneLocation : QRLocation :=
  { top_left := { x := 0, y := 0 }
    top_right := { x := 20, y := 0 }
    bottom_left := { x := 0, y := 20 }
    module_size := 1
    version := 1 }

/-- A decoder over trivial image types whose locate stage finds exactly
one placement. -/
def locatingDecoder : Decoder Unit Unit Unit :=
  { grayscale := id
    threshold := id
    locate := fun _ => [oneLocation]
    extract := fun _ locs => locs.map (fun loc => QRData.new [] loc.version)
    decode := fun ms => ms.map (fun _ =>
        Except.error { msg := "unreadable format information" }) }

/-- Every in-grid cell of a row-major matrix is a valid position of an
array holding at least side * side entries. -/
theorem cell_index_lt {side x y len : Nat} (hx : x < side) (hy : y < side)
    (hlen : side * side ≤ len) : y * side + x < len :=
  calc y * side + x < y * side + side := by omega
    _ = (y + 1) * side := by ring
    _ ≤ side * side := Nat.mul_le_mul_right side hy
    _ ≤ len := hlen

/-- The canonical Index read succeeds exactly when the raw row-major
position is within the stored array. -/
theorem index_isSome_iff (q : QRData) (x y : Nat) :
    ((q.index x y).isSome = true) ↔ y * q.side + x < q.data.length := by
  unfold QRData.index
  cases h : q.data.get? (y * q.side + x) with
  | some pixel =>
    simp only [Option.isSome_some, true_iff]
    by_contra hge
    rw [not_lt] at hge
    rw [List.get?_eq_none.mpr hge] at h
    exact Option.noConfusion h
  | none =>
    simp only [Option.isSome_none, Bool.false_eq_true, false_iff, not_lt]
    exact List.get?_eq_none.mp h

/-- C1, counterexample: the single entry that block_info produces, at
(version 1, MEDIUM), has total_per - data_per = 26 - 16 = 10 while
2 * ec_cap = 8, so the claimed invariant fails on the code. -/
theorem c1_counterexample :
    block_info 1 ECLevel.MEDIUM = some [BlockInfo.new 1 26 16 4] ∧
    (BlockInfo.new 1 26 16 4).total_per - (BlockInfo.new 1 26 16 4).data_per ≠
      2 * (BlockInfo.new 1 26 16 4).ec_cap := by
  exact ⟨rfl, by decide⟩

/-- C1, amended: for every BlockInfo entry produced by block_info (every
entry of every vector it returns for any (version, ECLevel) pair),
total_per - data_per = 2 * ec_cap + 2. -/
theorem c1_block_info_parity (version : Nat) (level : ECLevel)
    (bs : List BlockInfo) (b : BlockInfo)
    (hbs : block_info version level = some bs) (hb : b ∈ bs) :
    b.total_per - b.data_per = 2 * b.ec_cap + 2 := by
  cases level <;> rcases version with _ | _ | v <;>
    simp only [block_info, Option.some.injEq, reduceCtorEq] at hbs
  subst hbs
  simp only [List.mem_singleton] at hb
  subst hb
  decide

/-- Witness for C1: the amended invariant evaluated at the populated
table entry. -/
theorem c1_witness :
    (BlockInfo.new 1 26 16 4).total_per - (BlockInfo.new 1 26 16 4).data_per =
      2 * (BlockInfo.new 1 26 16 4).ec_cap + 2 :=
  c1_block_info_parity 1 ECLevel.MEDIUM [BlockInfo.new 1 26 16 4]
    (BlockInfo.new 1 26 16 4) rfl (by decide)

/-- C2: for every QRData and every in-bounds coordinate [x, y] with
x < side and y < side (and the raw array long enough to hold the grid),
indexing returns 1 exactly when the raw stored byte at row-major
position y * side + x equals 0, and 0 otherwise; the value handed out
is always the canonical bit 0 or 1, never the raw byte itself. -/
theorem c2_canonical_index (q : QRData) (x y : Nat)
    (hx : x < q.side) (hy : y < q.side)
    (hlen : q.side * q.side ≤ q.data.length) :
    q.index x y =
      some (if q.data.get ⟨y * q.side + x, cell_index_lt hx hy hlen⟩ = 0
            then 1 else 0) ∧
    (q.index x y = some 0 ∨ q.index x y = some 1) := by
  have hlt : y * q.side + x < q.data.length := cell_index_lt hx hy hlen
  have hget : q.data.get? (y * q.side + x) =
      some (q.data.get ⟨y * q.side + x, hlt⟩) := List.get?_eq_get hlt
  unfold QRData.index
  rw [hget]
  refine ⟨rfl, ?_⟩
  by_cases h0 : q.data.get ⟨y * q.side + x, hlt⟩ = 0
  · refine Or.inr ?_
    show some (if q.data.get ⟨y * q.side + x, hlt⟩ = 0 then 1 else 0) = some 1
    rw [if_pos h0]
  · refine Or.inl ?_
    show some (if q.data.get ⟨y * q.side + x, hlt⟩ = 0 then 1 else 0) = some 0
    rw [if_neg h0]

set_option maxRecDepth 4096 in
/-- Witness for C2: a version-0 matrix over a 289-byte array of raw
value 5 yields canonical bit 0 at the origin. -/
theorem c2_witness :
    (QRData.new (List.replicate 289 5) 0).index 0 0 = some 0 := by
  have h := (c2_canonical_index (QRData.new (List.replicate 289 5) 0) 0 0
      (by norm_num [QRData.new, U32MOD])
      (by norm_num [QRData.new, U32MOD])
      (by norm_num [QRData.new, U32MOD, List.length_replicate])).1
  simpa [QRData.new, List.getElem_replicate] using h

/-- C3: block_info returns Some for exactly one pair, version 1 with
MEDIUM, and None for every other pair; as a total function of its two
arguments it never panics. -/
theorem c3_block_info_support (version : Nat) (level : ECLevel) :
    block_info version level =
      if version = 1 ∧ level = ECLevel.MEDIUM
      then some [BlockInfo.new 1 26 16 4]
      else none := by
  cases level <;> rcases version with _ | _ | v <;> simp [block_info]

/-- C4: every QRData built by QRData.new satisfies
side = 4 * version + 17 in u32 arithmetic, and its data and version
fields equal the constructor arguments unchanged. -/
theorem c4_new_invariant (data : List Nat) (version : Nat) :
    (QRData.new data version).side = (4 * version + 17) % U32MOD ∧
    (QRData.new data version).data = data ∧
    (QRData.new data version).version = version :=
  ⟨rfl, rfl, rfl⟩

/-- C5: whenever the Locate stage returns an empty placement list, the
pipeline returns the empty result list; moreover the result does not
depend on the Extract and Decode stage components, so those stages are
never invoked on that path. -/
theorem c5_empty_locate_short_circuit {S G T : Type}
    (d : Decoder S G T) (source : S)
    (hempty : d.locate (d.threshold (d.grayscale source)) = []) :
    d.decodeImage source = [] ∧
    ∀ (e : T → List QRLocation → List QRData)
      (dec : List QRData → List (Except QRError String)),
      Decoder.decodeImage { d with extract := e, decode := dec } source = [] := by
  refine ⟨?_, fun e dec => ?_⟩ <;> simp [Decoder.decodeImage, hempty]

/-- Witness for C5: the short-circuit evaluated on a decoder whose
locate stage finds nothing. -/
theorem c5_witness : trivialDecoder.decodeImage () = [] :=
  (c5_empty_locate_short_circuit trivialDecoder () rfl).1

/-- C6: building fails (with the panic message of the first missing
component) exactly when at least one of the five stage components is
unset, before any decode call; when all five are set, build returns a
Decoder. -/
theorem c6_build_fails_iff_missing {S G T : Type} (b : DecoderBuilder S G T) :
    ((∃ msg, b.build = Except.error msg) ↔
      (b.grayscale = none ∨ b.threshold = none ∨ b.locate = none ∨
       b.extract = none ∨ b.decode = none)) ∧
    ((∃ d, b.build = Except.ok d) ↔
      (b.grayscale.isSome = true ∧ b.threshold.isSome = true ∧
       b.locate.isSome = true ∧ b.extract.isSome = true ∧
       b.decode.isSome = true)) := by
  obtain ⟨g, t, l, e, dec⟩ := b
  cases g <;> cases t <;> cases l <;> cases e <;> cases dec <;>
    simp [DecoderBuilder.build]

/-- C7: on the non-empty path, the pipeline equals the composition of
the stages in fixed order, grayscale, threshold, locate, extract,
decode, with the same thresholded image passed to both the locate and
the extract stages. -/
theorem c7_stage_composition {S G T : Type} (d : Decoder S G T) (source : S)
    (hfound : d.locate (d.threshold (d.grayscale source)) ≠ []) :
    d.decodeImage source =
      d.decode (d.extract (d.threshold (d.grayscale source))
        (d.locate (d.threshold (d.grayscale source)))) := by
  have hlen : (d.locate (d.threshold (d.grayscale source))).length ≠ 0 := by
    simpa [List.length_eq_zero] using hfound
  simp [Decoder.decodeImage, hlen]

/-- Witness for C7: the composition equation evaluated on a decoder
that locates exactly one placement. -/
theorem c7_witness :
    locatingDecoder.decodeImage () =
      locatingDecoder.decode (locatingDecoder.extract
        (locatingDecoder.threshold (locatingDecoder.grayscale ()))
        (locatingDecoder.locate
          (locatingDecoder.threshold (locatingDecoder.grayscale ())))) :=
  c7_stage_composition locatingDecoder ()
    (by simp [locatingDecoder])

/-- C8: a read through the Index operator leaves the matrix unchanged:
the data, version, and side fields after the read equal their values
before it. -/
theorem c8_index_preserves_matrix (q : QRData) (x y : Nat) :
    (q.indexRead x y).2.data = q.data ∧
    (q.indexRead x y).2.version = q.version ∧
    (q.indexRead x y).2.side = q.side :=
  ⟨rfl, rfl, rfl⟩

/-- C9: QRData.new stores any array without validating its length, and
indexing every in-grid coordinate succeeds exactly when the array holds
at least side * side bytes; for a shorter array some in-grid coordinate
reaches past the array, which in the source is an out-of-bounds Vec
panic. -/
theorem c9_index_bounds (data : List Nat) (version : Nat) :
    (QRData.new data version).data = data ∧
    ((∀ x y, x < (QRData.new data version).side →
        y < (QRData.new data version).side →
        ((QRData.new data version).index x y).isSome = true) ↔
      (QRData.new data version).side * (QRData.new data version).side ≤
        data.length) := by
  refine ⟨rfl, ?_⟩
  have hs : 1 ≤ (QRData.new data version).side := by
    show 1 ≤ (4 * version + 17) % U32MOD
    have h32 : U32MOD = 4294967296 := by norm_num [U32MOD]
    rw [h32]
    omega
  constructor
  · intro h
    have hmem := h ((QRData.new data version).side - 1)
      ((QRData.new data version).side - 1) (by omega) (by omega)
    rw [index_isSome_iff] at hmem
    obtain ⟨n, hn⟩ := Nat.exists_eq_add_of_le hs
    rw [hn] at hmem ⊢
    simp only [Nat.add_sub_cancel_left] at hmem
    have hmem2 : n * (1 + n) + n < data.length := hmem
    nlinarith [hmem2]
  · intro hlen x y hx hy
    rw [index_isSome_iff]
    exact cell_index_lt hx hy hlen

/-- C10: default_builder binds all five stage components, so building
it always succeeds and the missing-component failure branch is
unreachable from default_decoder. -/
theorem c10_default_builder_complete :
    default_builder.grayscale.isSome = true ∧
    default_builder.threshold.isSome = true ∧
    default_builder.locate.isSome = true ∧
    default_builder.extract.isSome = true ∧
    default_builder.decode.isSome = true ∧
    ∃ d, default_decoder = Except.ok d :=
  ⟨rfl, rfl, rfl, rfl, rfl, ⟨_, rfl⟩⟩

end Bardecoder
